import Mathlib

/-!
Verification of the pytest-crap scoring pipeline.

The development embeds the core of the repository in Lean:
* `mapper.py` — the AST visitor that maps functions to line ranges
  (`FunctionDef`, `visitNode` / `visitForest`, `map_functions_model`);
* `calculator.py` — the CRAP score computation (`FunctionScore`,
  `totalLines`, `coveredCount`, `coveragePercent`, `ccOf`, `crapFormula`,
  `scoreOf`, `calculate_crap`);
* `reporter.py` — the sorting / truncation / grouping logic
  (`sortDescCrap`, `pyTake`, `render_function_table`, `fileSummaries`,
  `render_file_summary`, `render_folder_summary`);
* `plugin.py` — the per-file batch loop with its error containment
  (`calculate_crapE`, `collect_scores`).

Machine integers are modelled as `Int` (Python integers are unbounded) and
Python floats as `Rat`; all arithmetic in the scoring formula is exact on
the inputs of interest, so the rational model is faithful.
-/

namespace PytestCrap

/-- `mapper.py` `FunctionDef` dataclass: a function definition with its
line range and descriptive flags. -/
structure FunctionDef where
  name : String
  start_line : Int
  end_line : Int
  is_method : Bool
  is_async : Bool
deriving DecidableEq

/-- `calculator.py` `FunctionScore` dataclass. -/
structure FunctionScore where
  name : String
  file_path : String
  start_line : Int
  end_line : Int
  cc : Nat
  coverage_percent : Rat
  crap : Rat
deriving DecidableEq

/-- `calculator.py` line 49: `total_lines = max(1, fdef.end_line - fdef.start_line + 1)`. -/
def totalLines (f : FunctionDef) : Int :=
  max 1 (f.end_line - f.start_line + 1)

/-- `calculator.py` line 50: `covered = sum(1 for ln in range(fdef.start_line,
fdef.end_line + 1) if ln in covered_lines)`. -/
def coveredCount (covered_lines : Finset Int) (f : FunctionDef) : Nat :=
  ((Finset.Icc f.start_line f.end_line).filter (· ∈ covered_lines)).card

/-- `calculator.py` line 51: `coverage_percent = (covered / total_lines) * 100.0`. -/
def coveragePercent (covered_lines : Finset Int) (f : FunctionDef) : Rat :=
  ((coveredCount covered_lines f : Rat) / (totalLines f : Rat)) * 100

/-- `calculator.py` line 52: `cc = cc_by_start.get(fdef.start_line, 0)`; the
dict built from radon output is modelled as `Int → Option Nat`. -/
def ccOf (cc_by_start : Int → Option Nat) (f : FunctionDef) : Nat :=
  (cc_by_start f.start_line).getD 0

/-- `calculator.py` lines 54-55: `cov_factor = (1.0 - coverage_percent / 100.0) ** 3`
and `crap = (cc**2) * cov_factor + cc`. -/
def crapFormula (cc : Nat) (coverage_percent : Rat) : Rat :=
  (cc : Rat) ^ 2 * (1 - coverage_percent / 100) ^ 3 + cc

/-- One iteration of the loop in `calculate_crap` (`calculator.py` lines 48-66):
build the `FunctionScore` for one `FunctionDef`. -/
def scoreOf (file_path : String) (covered_lines : Finset Int)
    (cc_by_start : Int → Option Nat) (fdef : FunctionDef) : FunctionScore :=
  { name := fdef.name
    file_path := file_path
    start_line := fdef.start_line
    end_line := fdef.end_line
    cc := ccOf cc_by_start fdef
    coverage_percent := coveragePercent covered_lines fdef
    crap := crapFormula (ccOf cc_by_start fdef) (coveragePercent covered_lines fdef) }

/-- `calculate_crap` (`calculator.py` lines 21-68) restricted to its pure core:
the file read, the mapper call and the radon call are inputs (`funcs`,
`cc_by_start`); the loop maps `scoreOf` over the mapper's output in order. -/
def calculate_crap (file_path : String) (covered_lines : Finset Int)
    (funcs : List FunctionDef) (cc_by_start : Int → Option Nat) : List FunctionScore :=
  funcs.map (scoreOf file_path covered_lines cc_by_start)

/-- Sample function range used to instantiate universally quantified results. -/
def exDef : FunctionDef :=
  { name := "f", start_line := 2, end_line := 3, is_method := false, is_async := false }

/-- Sample complexity mapping: a function starting at line 2 has complexity 2. -/
def exCC : Int → Option Nat := fun l => if l = 2 then some 2 else none

/-- C1: a score whose coverage_percent is 100 has crap equal to cc exactly; and
when start_line ≤ end_line and every line of [start_line, end_line] is covered,
coverage_percent is 100. -/
theorem crap_eq_cc_of_full_coverage (fp : String) (cov : Finset Int)
    (ccB : Int → Option Nat) (f : FunctionDef) :
    ((scoreOf fp cov ccB f).coverage_percent = 100 →
      (scoreOf fp cov ccB f).crap = ((scoreOf fp cov ccB f).cc : Rat)) ∧
    (f.start_line ≤ f.end_line →
      (∀ ln ∈ Finset.Icc f.start_line f.end_line, ln ∈ cov) →
      (scoreOf fp cov ccB f).coverage_percent = 100) := by
  constructor
  · intro h
    simp only [scoreOf] at h ⊢
    rw [crapFormula, h]
    norm_num
  · intro hle hcov
    simp only [scoreOf, coveragePercent, coveredCount, totalLines]
    rw [Finset.filter_true_of_mem hcov, Int.card_Icc]
    have h1 : f.end_line - f.start_line + 1 ≥ 1 := by omega
    have h2 : max 1 (f.end_line - f.start_line + 1) = f.end_line - f.start_line + 1 :=
      max_eq_right h1
    have h3 : ((f.end_line + 1 - f.start_line).toNat : Int) = f.end_line + 1 - f.start_line :=
      Int.toNat_of_nonneg (by omega)
    rw [h2]
    have h4 : ((f.end_line + 1 - f.start_line).toNat : Rat)
        = ((f.end_line - f.start_line + 1 : Int) : Rat) := by
      rw [show ((f.end_line + 1 - f.start_line).toNat : Rat)
          = (((f.end_line + 1 - f.start_line).toNat : Int) : Rat) by push_cast; ring]
      rw [h3]
      push_cast
      ring
    rw [h4]
    have h5 : ((f.end_line - f.start_line + 1 : Int) : Rat) ≠ 0 := by
      have : (1 : Rat) ≤ ((f.end_line - f.start_line + 1 : Int) : Rat) := by
        exact_mod_cast h1
      linarith
    rw [div_self h5]
    norm_num

/-- C1 witness: lines 2-3 fully covered by {2, 3} gives coverage 100 and crap = cc. -/
theorem crap_eq_cc_of_full_coverage_witness :
    (scoreOf "a.py" {2, 3} exCC exDef).coverage_percent = 100 ∧
    (scoreOf "a.py" {2, 3} exCC exDef).crap = ((scoreOf "a.py" {2, 3} exCC exDef).cc : Rat) := by
  have h := crap_eq_cc_of_full_coverage "a.py" {2, 3} exCC exDef
  have hcov := h.2 (by decide) (by decide)
  exact ⟨hcov, h.1 hcov⟩

/-- C2: when the complexity mapping yields 0 for the start line (in particular
when it has no entry there, since the dict default is 0), cc is 0 and crap is 0,
regardless of coverage. -/
theorem crap_zero_of_cc_zero (fp : String) (cov : Finset Int)
    (ccB : Int → Option Nat) (f : FunctionDef)
    (h : (ccB f.start_line).getD 0 = 0) :
    (scoreOf fp cov ccB f).cc = 0 ∧ (scoreOf fp cov ccB f).crap = 0 := by
  have hcc : ccOf ccB f = 0 := h
  refine ⟨hcc, ?_⟩
  simp only [scoreOf, crapFormula, hcc]
  norm_num

/-- C2 witness: an empty complexity mapping forces cc = 0 and crap = 0 even at 0% coverage. -/
theorem crap_zero_of_cc_zero_witness :
    (scoreOf "a.py" ∅ (fun _ => none) exDef).cc = 0 ∧
    (scoreOf "a.py" ∅ (fun _ => none) exDef).crap = 0 :=
  crap_zero_of_cc_zero "a.py" ∅ (fun _ => none) exDef rfl

/-- C3: the crap value computed by `calculate_crap` through `crapFormula` is
non-increasing in coverage_percent on [0, 100] for a fixed cc, and `scoreOf`
computes its crap field by exactly this formula. -/
theorem crap_antitone_in_coverage (cc : Nat) (p₁ p₂ : Rat)
    (h0 : 0 ≤ p₁) (h12 : p₁ ≤ p₂) (h2 : p₂ ≤ 100) :
    crapFormula cc p₂ ≤ crapFormula cc p₁ ∧
    ∀ fp cov ccB f, (scoreOf fp cov ccB f).crap
      = crapFormula (ccOf ccB f) (coveragePercent cov f) := by
  refine ⟨?_, fun fp cov ccB f => rfl⟩
  unfold crapFormula
  have hx : (0 : Rat) ≤ 1 - p₂ / 100 := by linarith
  have hy : 1 - p₂ / 100 ≤ 1 - p₁ / 100 := by linarith
  have hcube : (1 - p₂ / 100) ^ 3 ≤ (1 - p₁ / 100) ^ 3 := pow_le_pow_left hx hy 3
  have hsq : (0 : Rat) ≤ (cc : Rat) ^ 2 := sq_nonneg _
  have := mul_le_mul_of_nonneg_left hcube hsq
  linarith

/-- C3 witness: with cc = 2, the crap value at 100% coverage is at most the one at 0%. -/
theorem crap_antitone_in_coverage_witness :
    crapFormula 2 100 ≤ crapFormula 2 0 :=
  (crap_antitone_in_coverage 2 0 100 (by norm_num) (by norm_num) (by norm_num)).1

/-- C7: total_lines is at least 1, the covered-line count never exceeds
total_lines, and coverage_percent always lies in [0, 100]. -/
theorem coverage_percent_bounds (fp : String) (cov : Finset Int)
    (ccB : Int → Option Nat) (f : FunctionDef) :
    1 ≤ totalLines f ∧ (coveredCount cov f : Int) ≤ totalLines f ∧
    0 ≤ (scoreOf fp cov ccB f).coverage_percent ∧
    (scoreOf fp cov ccB f).coverage_percent ≤ 100 := by
  have h1 : 1 ≤ totalLines f := le_max_left _ _
  have hcard : coveredCount cov f ≤ (f.end_line + 1 - f.start_line).toNat := by
    rw [coveredCount, ← Int.card_Icc]
    exact Finset.card_filter_le _ _
  have h2 : (coveredCount cov f : Int) ≤ totalLines f := by
    have hc : (coveredCount cov f : Int) ≤ ((f.end_line + 1 - f.start_line).toNat : Int) := by
      exact_mod_cast hcard
    have ht : ((f.end_line + 1 - f.start_line).toNat : Int)
        ≤ max 1 (f.end_line - f.start_line + 1) := by
      rcases le_or_lt 0 (f.end_line + 1 - f.start_line) with hpos | hneg
      · rw [Int.toNat_of_nonneg hpos]
        omega
      · rw [Int.toNat_of_nonpos (by omega)]
        omega
    exact le_trans hc (le_trans ht (le_of_eq rfl))
  refine ⟨h1, h2, ?_, ?_⟩
  · simp only [scoreOf, coveragePercent]
    have htpos : (0 : Rat) < (totalLines f : Rat) := by
      have : (1 : Rat) ≤ (totalLines f : Rat) := by exact_mod_cast h1
      linarith
    have : (0 : Rat) ≤ (coveredCount cov f : Rat) / (totalLines f : Rat) :=
      div_nonneg (by positivity) (le_of_lt htpos)
    linarith
  · simp only [scoreOf, coveragePercent]
    have htpos : (0 : Rat) < (totalLines f : Rat) := by
      have : (1 : Rat) ≤ (totalLines f : Rat) := by exact_mod_cast h1
      linarith
    have hle : (coveredCount cov f : Rat) ≤ (totalLines f : Rat) := by
      exact_mod_cast h2
    have : (coveredCount cov f : Rat) / (totalLines f : Rat) ≤ 1 :=
      (div_le_one htpos).mpr hle
    linarith

/-! ## Mapper (`mapper.py`) -/

mutual
/-- A fragment of the Python AST, as seen by `FunctionMapper` (`mapper.py`):
class definitions, (async) function definitions — carrying `lineno` and the
optional `end_lineno` — and all other nodes, through which `generic_visit`
just recurses into the children. -/
inductive PyNode where
  | classDef (name : String) (body : PyForest)
  | funcDef (name : String) (lineno : Int) (end_lineno : Option Int)
      (body : PyForest) (is_async : Bool)
  | other (children : PyForest)

/-- A list of AST nodes (the body of a module, class, or function). -/
inductive PyForest where
  | nil
  | cons (n : PyNode) (ns : PyForest)
end

/-- Python's `x or y` for `x : Optional[int]`: `y` when `x` is `None` or `0`.
Models `end_line = node.end_lineno or node.lineno` (`mapper.py` line 49). -/
def pyOrInt (x : Option Int) (y : Int) : Int :=
  match x with
  | none => y
  | some v => if v = 0 then y else v

mutual
/-- The `FunctionMapper` visitor (`mapper.py` lines 18-59) on one node:
`visit_ClassDef` swaps `current_class` to the class name for the body and
restores it afterwards; `visit_FunctionDef` / `visit_AsyncFunctionDef`
append a `FunctionDef` whose `is_method` is `current_class is not None`,
then visit the body with `current_class` unchanged. -/
def visitNode (cur : Option String) : PyNode → List FunctionDef
  | .classDef name body => visitForest (some name) body
  | .funcDef name lineno end_lineno body is_async =>
      { name := name
        start_line := lineno
        end_line := pyOrInt end_lineno lineno
        is_method := cur.isSome
        is_async := is_async } :: visitForest cur body
  | .other children => visitForest cur children

/-- The visitor folded over a list of sibling nodes, in source order. -/
def visitForest (cur : Option String) : PyForest → List FunctionDef
  | .nil => []
  | .cons n ns => visitNode cur n ++ visitForest cur ns
end

/-- `map_functions` (`mapper.py` lines 62-82) restricted to its pure core:
visit the parsed module body with `current_class = None`. -/
def map_functions_model (tree : PyForest) : List FunctionDef :=
  visitForest none tree

mutual
/-- Modelled from the spec (claim C4 / spec section 4.1), for comparison with
the code: is_method is true iff the nearest enclosing named scope immediately
above the function is a class body — entering a function body resets the
flag, entering a class body sets it, other nodes leave it unchanged. -/
def specDirectNode (nearestIsClass : Bool) : PyNode → List FunctionDef
  | .classDef _ body => specDirectForest true body
  | .funcDef name lineno end_lineno body is_async =>
      { name := name
        start_line := lineno
        end_line := pyOrInt end_lineno lineno
        is_method := nearestIsClass
        is_async := is_async } :: specDirectForest false body
  | .other children => specDirectForest nearestIsClass children

/-- `specDirectNode` folded over sibling nodes. -/
def specDirectForest (nearestIsClass : Bool) : PyForest → List FunctionDef
  | .nil => []
  | .cons n ns => specDirectNode nearestIsClass n ++ specDirectForest nearestIsClass ns
end

mutual
/-- The amended reading of claim C4: is_method is true iff the function sits
lexically anywhere inside a class — entering a class body sets the flag, and
neither function bodies nor other nodes reset it. -/
def specAnyNode (insideClass : Bool) : PyNode → List FunctionDef
  | .classDef _ body => specAnyForest true body
  | .funcDef name lineno end_lineno body is_async =>
      { name := name
        start_line := lineno
        end_line := pyOrInt end_lineno lineno
        is_method := insideClass
        is_async := is_async } :: specAnyForest insideClass body
  | .other children => specAnyForest insideClass children

/-- `specAnyNode` folded over sibling nodes. -/
def specAnyForest (insideClass : Bool) : PyForest → List FunctionDef
  | .nil => []
  | .cons n ns => specAnyNode insideClass n ++ specAnyForest insideClass ns
end

mutual
/-- The visitor agrees with the any-enclosing-class reading: only whether
`current_class` is set matters, not which name it holds. -/
theorem visitNode_eq_specAny (cur : Option String) (n : PyNode) :
    visitNode cur n = specAnyNode cur.isSome n := by
  cases n with
  | classDef name body =>
      show visitForest (some name) body = specAnyForest true body
      exact visitForest_eq_specAny (some name) body
  | funcDef name lineno end_lineno body is_async =>
      show _ :: visitForest cur body = _ :: specAnyForest cur.isSome body
      rw [visitForest_eq_specAny]
  | other children =>
      exact visitForest_eq_specAny cur children

/-- Forest version of `visitNode_eq_specAny`. -/
theorem visitForest_eq_specAny (cur : Option String) (ns : PyForest) :
    visitForest cur ns = specAnyForest cur.isSome ns := by
  cases ns with
  | nil => rfl
  | cons n ns =>
      show visitNode cur n ++ visitForest cur ns = _
      rw [visitNode_eq_specAny, visitForest_eq_specAny]
      rfl
end

/-- Counterexample input to C4: a class `C` holding a method `m` that itself
holds a nested function `inner`. -/
def exTree : PyForest :=
  .cons
    (.classDef "C"
      (.cons
        (.funcDef "m" 2 (some 5)
          (.cons (.funcDef "inner" 3 (some 4) .nil false) .nil)
          false)
        .nil))
    .nil

/-- C4 counterexample: on `exTree`, the mapper flags the nested function
`inner` as a method (is_method flags `[true, true]`), while the claim's
direct-lexical-parent reading demands `[true, false]` — the claim as stated
is false of the code. -/
theorem is_method_direct_parent_counterexample :
    map_functions_model exTree ≠ specDirectForest false exTree ∧
    (map_functions_model exTree).map (·.is_method) = [true, true] ∧
    (specDirectForest false exTree).map (·.is_method) = [true, false] := by
  refine ⟨?_, rfl, rfl⟩
  intro h
  have := congrArg (List.map (·.is_method)) h
  simp only [show (map_functions_model exTree).map (·.is_method) = [true, true] from rfl,
    show (specDirectForest false exTree).map (·.is_method) = [true, false] from rfl] at this
  exact absurd (List.cons.injEq .. ▸ this) (by simp)

/-- C4 amended: the mapper's is_method flag is true iff the function sits
lexically anywhere inside a class (a function nested inside a method is also
flagged), as computed by `specAnyForest`. -/
theorem is_method_iff_inside_some_class (tree : PyForest) :
    map_functions_model tree = specAnyForest false tree :=
  visitForest_eq_specAny none tree

/-! ## Reporter (`reporter.py`) -/

/-- `reporter.py` line 95: `rows = sorted(scores, key=lambda x: x.crap,
reverse=True)` — Python's sort is stable; with `reverse=True` equal keys
keep their input order, which is exactly a stable sort by the relation
`b.crap ≤ a.crap`. -/
def sortDescCrap (scores : List FunctionScore) : List FunctionScore :=
  scores.mergeSort (fun a b => decide (b.crap ≤ a.crap))

/-- Python list slicing `l[:n]` for an arbitrary integer bound `n`:
a negative bound counts from the end, clamped at zero. -/
def pyTake (n : Int) (l : List α) : List α :=
  if 0 ≤ n then l.take n.toNat else l.take ((l.length : Int) + n).toNat

/-- `render_function_table` (`reporter.py` lines 87-112) restricted to its
row-selection core (lines 95-97): sort descending by crap, then
`if top_n: rows = rows[:top_n]` — a Python int is truthy iff nonzero. -/
def render_function_table (scores : List FunctionScore) (top_n : Int) :
    List FunctionScore :=
  let rows := sortDescCrap scores
  if top_n ≠ 0 then pyTake top_n rows else rows

/-- The descending-by-crap comparison used by the function table is transitive. -/
theorem crapLE_trans (a b c : FunctionScore) :
    (fun a b => decide (b.crap ≤ a.crap)) a b →
    (fun a b => decide (b.crap ≤ a.crap)) b c →
    (fun a b => decide (b.crap ≤ a.crap)) a c := by
  simp only [decide_eq_true_eq]
  exact fun h1 h2 => le_trans h2 h1

/-- The descending-by-crap comparison used by the function table is total. -/
theorem crapLE_total (a b : FunctionScore) :
    ((fun a b => decide (b.crap ≤ a.crap)) a b
      || (fun a b => decide (b.crap ≤ a.crap)) b a) = true := by
  simp only [Bool.or_eq_true, decide_eq_true_eq]
  exact le_total b.crap a.crap

/-- C5: `render_function_table` with top_n = 0 keeps exactly one entry per
input score (a permutation, no truncation) sorted non-increasingly by crap;
with top_n > 0 it keeps the first top_n entries of the sorted list; and the
sort is stable — two entries with equal crap appearing in input order
reappear in that order in the untruncated output. -/
theorem render_function_table_spec (scores : List FunctionScore) :
    (render_function_table scores 0).Perm scores ∧
    (render_function_table scores 0).Pairwise (fun a b => b.crap ≤ a.crap) ∧
    (∀ n : Int, 0 < n →
      render_function_table scores n = (sortDescCrap scores).take n.toNat) ∧
    (∀ a b, [a, b].Sublist scores → a.crap = b.crap →
      [a, b].Sublist (render_function_table scores 0)) := by
  have hzero : render_function_table scores 0 = sortDescCrap scores := by
    simp [render_function_table]
  refine ⟨?_, ?_, ?_, ?_⟩
  · rw [hzero]
    exact List.mergeSort_perm scores _
  · rw [hzero]
    have h := List.sorted_mergeSort crapLE_trans crapLE_total scores
    exact h.imp (fun hab => of_decide_eq_true hab)
  · intro n hn
    have hne : n ≠ 0 := by omega
    simp only [render_function_table, if_pos hne, pyTake, if_pos (le_of_lt hn)]
  · intro a b hsub heq
    rw [hzero]
    have hpw : [a, b].Pairwise (fun x y => (decide (y.crap ≤ x.crap) : Bool)) := by
      simp only [List.pairwise_cons, List.mem_singleton, forall_eq, decide_eq_true_eq]
      exact ⟨le_of_eq heq.symm, by simp⟩
    exact List.sublist_mergeSort crapLE_trans crapLE_total hpw hsub

/-- Sample scores for instantiating the reporter results. -/
def exScoreA : FunctionScore :=
  { name := "fa", file_path := "a.py", start_line := 1, end_line := 2,
    cc := 2, coverage_percent := 0, crap := 25 }

/-- Second sample score, same crap value as `exScoreA`, in the same file. -/
def exScoreB : FunctionScore :=
  { name := "fb", file_path := "a.py", start_line := 4, end_line := 6,
    cc := 3, coverage_percent := 50, crap := 25 }

/-- C5 witness: on a concrete two-score list, top_n = 0 yields a permutation,
top_n = 1 takes one entry of the sorted list, and the equal-crap pair keeps
its input order. -/
theorem render_function_table_spec_witness :
    (render_function_table [exScoreA, exScoreB] 0).Perm [exScoreA, exScoreB] ∧
    render_function_table [exScoreA, exScoreB] 1
      = (sortDescCrap [exScoreA, exScoreB]).take 1 ∧
    [exScoreA, exScoreB].Sublist (render_function_table [exScoreA, exScoreB] 0) := by
  have h := render_function_table_spec [exScoreA, exScoreB]
  exact ⟨h.1, h.2.2.1 1 (by norm_num),
    h.2.2.2 exScoreA exScoreB (List.Sublist.refl _) (by decide)⟩

/-- `reporter.py` `FileSummary` dataclass (also reused for folder summaries). -/
structure FileSummary where
  file : String
  max_crap : Rat
  count_above : Nat
deriving DecidableEq

/-- The keys of the `by_file` dict built with `setdefault` (`reporter.py`
lines 121-123): first-occurrence order of the grouping key. -/
def groupKeys (key : FunctionScore → String) (scores : List FunctionScore) :
    List String :=
  scores.foldl (fun ks s => if key s ∈ ks then ks else ks ++ [key s]) []

/-- Python's `max(f.crap for f in funcs)` on a nonempty group
(`reporter.py` line 127). -/
def maxCrapList : List FunctionScore → Rat
  | [] => 0
  | f :: fs => fs.foldl (fun m g => max m g.crap) f.crap

/-- The summary-building loop (`reporter.py` lines 125-129 and 164-168):
one `FileSummary` per distinct grouping key, in first-occurrence order; each
group is the input subsequence with that key, `max_crap` its maximum crap and
`count_above` the number of its scores with `crap >= threshold`. -/
def fileSummaries (key : FunctionScore → String) (scores : List FunctionScore)
    (threshold : Rat) : List FileSummary :=
  (groupKeys key scores).map fun k =>
    let funcs := scores.filter (fun s => key s = k)
    { file := k
      max_crap := maxCrapList funcs
      count_above := (funcs.filter (fun f => threshold ≤ f.crap)).length }

/-- `reporter.py` line 131/170: `summaries.sort(key=lambda x: x.max_crap,
reverse=True)` — stable descending sort by `max_crap`. -/
def sortDescMax (ss : List FileSummary) : List FileSummary :=
  ss.mergeSort (fun a b => decide (b.max_crap ≤ a.max_crap))

/-- `render_file_summary` (`reporter.py` lines 114-150) restricted to its
summary-selection core (lines 120-133). -/
def render_file_summary (scores : List FunctionScore) (top_n : Int)
    (threshold : Rat) : List FileSummary :=
  let ss := sortDescMax (fileSummaries (fun s => s.file_path) scores threshold)
  if top_n ≠ 0 then pyTake top_n ss else ss

/-- `render_folder_summary` (`reporter.py` lines 152-189) restricted to its
summary-selection core (lines 158-172); `str(Path(s.file_path).parent)` is an
external path operation, abstracted as `parent`. -/
def render_folder_summary (parent : String → String)
    (scores : List FunctionScore) (top_n : Int) (threshold : Rat) :
    List FileSummary :=
  let ss := sortDescMax (fileSummaries (fun s => parent s.file_path) scores threshold)
  if top_n ≠ 0 then pyTake top_n ss else ss

/-- `pyTake` always yields a sublist (both branches are `take`). -/
theorem pyTake_sublist (n : Int) (l : List α) : (pyTake n l).Sublist l := by
  unfold pyTake
  split <;> exact List.take_sublist _ _

/-- Every summary emitted by `fileSummaries` counts, in `count_above`, the
scores whose key matches the group and whose crap is ≥ threshold. -/
theorem fileSummaries_count (key : FunctionScore → String)
    (scores : List FunctionScore) (threshold : Rat) (s : FileSummary)
    (hs : s ∈ fileSummaries key scores threshold) :
    s.count_above
      = (scores.filter (fun f => key f = s.file ∧ threshold ≤ f.crap)).length := by
  simp only [fileSummaries, List.mem_map] at hs
  obtain ⟨k, -, rfl⟩ := hs
  simp only [List.filter_filter]
  congr 1
  apply List.filter_congr
  intro f _
  by_cases h1 : threshold ≤ f.crap <;> by_cases h2 : key f = k <;> simp [h1, h2]

/-- Third sample score: crap 30, same file as the other two samples. -/
def exScoreC : FunctionScore :=
  { name := "fc", file_path := "a.py", start_line := 8, end_line := 9,
    cc := 5, coverage_percent := 80, crap := 30 }

/-- Fourth sample score: crap 35, same file as the other samples. -/
def exScoreD : FunctionScore :=
  { name := "fd", file_path := "a.py", start_line := 11, end_line := 12,
    cc := 6, coverage_percent := 90, crap := 35 }

/-- C6: in both the file summary and the folder summary, `count_above`
counts the constituent functions with `crap >= threshold` (inclusive
boundary); concretely, three scores in one file with crap 25, 30, 35 and
threshold 30 summarize to a count of 2. -/
theorem count_above_threshold_spec :
    (∀ (scores : List FunctionScore) (n : Int) (thr : Rat) (s : FileSummary),
      s ∈ render_file_summary scores n thr →
      s.count_above
        = (scores.filter (fun f => f.file_path = s.file ∧ thr ≤ f.crap)).length) ∧
    (∀ (parent : String → String) (scores : List FunctionScore) (n : Int)
        (thr : Rat) (s : FileSummary),
      s ∈ render_folder_summary parent scores n thr →
      s.count_above
        = (scores.filter (fun f => parent f.file_path = s.file ∧ thr ≤ f.crap)).length) ∧
    render_file_summary [exScoreA, exScoreC, exScoreD] 0 30
      = [{ file := "a.py", max_crap := 35, count_above := 2 }] := by
  refine ⟨?_, ?_, ?_⟩
  · intro scores n thr s hs
    have hmem : s ∈ fileSummaries (fun x => x.file_path) scores thr := by
      have h1 : s ∈ sortDescMax (fileSummaries (fun x => x.file_path) scores thr) := by
        simp only [render_file_summary] at hs
        split at hs
        · exact (pyTake_sublist _ _).mem hs
        · exact hs
      rw [sortDescMax, List.mem_mergeSort] at h1
      exact h1
    exact fileSummaries_count _ scores thr s hmem
  · intro parent scores n thr s hs
    have hmem : s ∈ fileSummaries (fun x => parent x.file_path) scores thr := by
      have h1 : s ∈ sortDescMax (fileSummaries (fun x => parent x.file_path) scores thr) := by
        simp only [render_folder_summary] at hs
        split at hs
        · exact (pyTake_sublist _ _).mem hs
        · exact hs
      rw [sortDescMax, List.mem_mergeSort] at h1
      exact h1
    exact fileSummaries_count _ scores thr s hmem
  · have h1 : fileSummaries (fun s => s.file_path) [exScoreA, exScoreC, exScoreD] 30
        = [{ file := "a.py", max_crap := 35, count_above := 2 }] := by decide
    simp only [render_file_summary, h1, sortDescMax, List.mergeSort_singleton]
    norm_num

/-- C6 witness: the concrete summary of crap values 25, 30, 35 at threshold 30
has `count_above = 2`, by the general property applied at that input. -/
theorem count_above_threshold_spec_witness :
    (({ file := "a.py", max_crap := 35, count_above := 2 } : FileSummary)).count_above
      = ([exScoreA, exScoreC, exScoreD].filter
          (fun f => f.file_path = "a.py" ∧ (30 : Rat) ≤ f.crap)).length := by
  have h := count_above_threshold_spec
  exact h.1 [exScoreA, exScoreC, exScoreD] 0 30 _ (by rw [h.2.2]; exact List.mem_singleton.mpr rfl)

/-! ## Negative top_n (claim C10) -/

/-- Python's `l[:-k]` drops the last `k` elements (all of them when `k`
exceeds the length): both the Int and the Nat computation clamp at zero. -/
theorem pyTake_neg (k : Nat) (hk : 0 < k) (l : List α) :
    pyTake (-(k : Int)) l = l.take (l.length - k) := by
  unfold pyTake
  rw [if_neg (by omega)]
  congr 1
  omega

/-- C10: a negative `top_n = -k` is truthy, so it is used as a slice bound:
the function table renders the first `n - k` entries of the descending-sorted
list (thereby dropping the `k` lowest-ranked entries, showing neither all `n`
nor `k` entries), and the file and folder summaries slice their sorted
summary lists the same way. -/
theorem negative_top_n_slices (scores : List FunctionScore) (k : Nat)
    (hk : 0 < k) (hn : k ≤ scores.length) :
    render_function_table scores (-(k : Int))
      = (sortDescCrap scores).take (scores.length - k) ∧
    (render_function_table scores (-(k : Int))).length = scores.length - k ∧
    scores.length - k < scores.length ∧
    (∀ thr : Rat, render_file_summary scores (-(k : Int)) thr
      = (sortDescMax (fileSummaries (fun s => s.file_path) scores thr)).take
          ((fileSummaries (fun s => s.file_path) scores thr).length - k)) ∧
    (∀ (parent : String → String) (thr : Rat),
      render_folder_summary parent scores (-(k : Int)) thr
      = (sortDescMax (fileSummaries (fun s => parent s.file_path) scores thr)).take
          ((fileSummaries (fun s => parent s.file_path) scores thr).length - k)) := by
  have hlen : (sortDescCrap scores).length = scores.length :=
    (List.mergeSort_perm scores _).length_eq
  have h1 : render_function_table scores (-(k : Int))
      = (sortDescCrap scores).take (scores.length - k) := by
    simp only [render_function_table, if_pos (show -(k : Int) ≠ 0 by omega)]
    rw [pyTake_neg k hk, hlen]
  refine ⟨h1, ?_, by omega, ?_, ?_⟩
  · rw [h1, List.length_take, hlen]
    omega
  · intro thr
    have hl : (sortDescMax (fileSummaries (fun s => s.file_path) scores thr)).length
        = (fileSummaries (fun s => s.file_path) scores thr).length :=
      (List.mergeSort_perm _ _).length_eq
    simp only [render_file_summary, if_pos (show -(k : Int) ≠ 0 by omega)]
    rw [pyTake_neg k hk, hl]
  · intro parent thr
    have hl : (sortDescMax (fileSummaries (fun s => parent s.file_path) scores thr)).length
        = (fileSummaries (fun s => parent s.file_path) scores thr).length :=
      (List.mergeSort_perm _ _).length_eq
    simp only [render_folder_summary, if_pos (show -(k : Int) ≠ 0 by omega)]
    rw [pyTake_neg k hk, hl]

/-- C10 witness: with two scores and top_n = -1 the function table holds the
first 2 - 1 = 1 entry of the sorted list, not all 2. -/
theorem negative_top_n_slices_witness :
    render_function_table [exScoreA, exScoreD] (-(1 : Nat) : Int)
      = (sortDescCrap [exScoreA, exScoreD]).take ([exScoreA, exScoreD].length - 1) ∧
    (render_function_table [exScoreA, exScoreD] (-(1 : Nat) : Int)).length
      = [exScoreA, exScoreD].length - 1 := by
  have h := negative_top_n_slices [exScoreA, exScoreD] 1 (by norm_num) (by norm_num)
  exact ⟨h.1, h.2.1⟩

/-! ## No mutation of the input scores (claim C9) -/

/-- `render_function_table` with the input list threaded as explicit state:
`sorted(scores, ...)` allocates a fresh list and slicing copies, so the
input list object is returned unchanged alongside the rows. -/
def render_function_table_st (scores : List FunctionScore) (top_n : Int) :
    List FunctionScore × List FunctionScore :=
  let rows := sortDescCrap scores
  let rows := if top_n ≠ 0 then pyTake top_n rows else rows
  (scores, rows)

/-- `render_file_summary` with the input list threaded as explicit state:
the grouping loop only reads `file_path` and `crap` from each score. -/
def render_file_summary_st (scores : List FunctionScore) (top_n : Int)
    (threshold : Rat) : List FunctionScore × List FileSummary :=
  let ss := sortDescMax (fileSummaries (fun s => s.file_path) scores threshold)
  let ss := if top_n ≠ 0 then pyTake top_n ss else ss
  (scores, ss)

/-- `render_folder_summary` with the input list threaded as explicit state. -/
def render_folder_summary_st (parent : String → String)
    (scores : List FunctionScore) (top_n : Int) (threshold : Rat) :
    List FunctionScore × List FileSummary :=
  let ss := sortDescMax (fileSummaries (fun s => parent s.file_path) scores threshold)
  let ss := if top_n ≠ 0 then pyTake top_n ss else ss
  (scores, ss)

/-- C9: running the three renderers in sequence on the same score list — each
consuming the list the previous one left behind, as `plugin.py` lines 139-141
do — leaves the list equal to the original input at every step, and each
renderer's output equals the output it produces on the pristine input. -/
theorem renderers_do_not_mutate_scores (scores : List FunctionScore)
    (top_n : Int) (threshold : Rat) (parent : String → String) :
    (render_function_table_st scores top_n).1 = scores ∧
    (render_file_summary_st (render_function_table_st scores top_n).1
      top_n threshold).1 = scores ∧
    (render_folder_summary_st parent
      (render_file_summary_st (render_function_table_st scores top_n).1
        top_n threshold).1 top_n threshold).1 = scores ∧
    (render_function_table_st scores top_n).2
      = render_function_table scores top_n ∧
    (render_file_summary_st (render_function_table_st scores top_n).1
      top_n threshold).2 = render_file_summary scores top_n threshold ∧
    (render_folder_summary_st parent
      (render_file_summary_st (render_function_table_st scores top_n).1
        top_n threshold).1 top_n threshold).2
      = render_folder_summary parent scores top_n threshold :=
  ⟨rfl, rfl, rfl, rfl, rfl, rfl⟩

/-! ## Error containment (claims C8) -/

/-- The error cases of `map_functions` (`mapper.py` docstring lines 71-73):
`SyntaxError` from `ast.parse` on invalid source, `FileNotFoundError` from
`open` on a missing path. -/
inductive CrapError where
  | parseError (msg : String)
  | notFound (path : String)
deriving DecidableEq

/-- `map_functions` as a fallible call: the file system and `ast.parse` are
the environment `env`, giving either the visitor's output or an error. -/
def map_functionsE (env : String → Except CrapError (List FunctionDef))
    (file_path : String) : Except CrapError (List FunctionDef) :=
  env file_path

/-- `calculate_crap` as a fallible call (`calculator.py` lines 31-34 then
48-68): the mapper is consulted first and its error propagates — the function
body never catches — then the pure scoring loop runs. -/
def calculate_crapE (env : String → Except CrapError (List FunctionDef))
    (cc_by_start : Int → Option Nat) (file_path : String)
    (covered_lines : Finset Int) : Except CrapError (List FunctionScore) := do
  let funcs ← map_functionsE env file_path
  pure (calculate_crap file_path covered_lines funcs cc_by_start)

/-- One iteration of the batch loop in `pytest_terminal_summary`
(`plugin.py` lines 116-126): skip test/non-Python files (the
`os.path.basename` check is abstracted as `skipFile`), otherwise try
`calculate_crap` and extend the accumulator, swallowing any exception. -/
def scoreStep (env : String → Except CrapError (List FunctionDef))
    (ccEnv : String → Int → Option Nat) (skipFile : String → Bool)
    (acc : List FunctionScore) (p : String × Finset Int) : List FunctionScore :=
  if skipFile p.1 then acc
  else
    match calculate_crapE env (ccEnv p.1) p.1 p.2 with
    | .ok scores => acc ++ scores
    | .error _ => acc

/-- The batch loop over `file_lines.items()` (`plugin.py` lines 114-126). -/
def collect_scores (env : String → Except CrapError (List FunctionDef))
    (ccEnv : String → Int → Option Nat) (skipFile : String → Bool)
    (fileLines : List (String × Finset Int)) : List FunctionScore :=
  fileLines.foldl (scoreStep env ccEnv skipFile) []

/-- C8: when the mapper fails on one file, `calculate_crap` for that file
fails with the same error, and the batch loop skips exactly that file: the
collected scores over any file list containing the bad file equal the
collected scores with the bad file removed. -/
theorem parse_error_is_contained
    (env : String → Except CrapError (List FunctionDef))
    (ccEnv : String → Int → Option Nat) (skipFile : String → Bool)
    (bad : String) (cov : Finset Int) (e : CrapError)
    (h : env bad = .error e) :
    calculate_crapE env (ccEnv bad) bad cov = .error e ∧
    ∀ xs ys, collect_scores env ccEnv skipFile (xs ++ (bad, cov) :: ys)
        = collect_scores env ccEnv skipFile (xs ++ ys) := by
  have hbad : calculate_crapE env (ccEnv bad) bad cov = .error e := by
    simp [calculate_crapE, map_functionsE, h]
  refine ⟨hbad, ?_⟩
  intro xs ys
  have hstep : ∀ acc, scoreStep env ccEnv skipFile acc (bad, cov) = acc := by
    intro acc
    unfold scoreStep
    split
    · rfl
    · rw [hbad]
  simp only [collect_scores, List.foldl_append, List.foldl_cons, hstep]

/-- Concrete mapper environment: `bad.py` has a syntax error, every other
file parses to an empty module. -/
def exEnv : String → Except CrapError (List FunctionDef) :=
  fun fp => if fp = "bad.py" then .error (.parseError "invalid syntax") else .ok []

/-- C8 witness: with `bad.py` unparseable, its `calculate_crap` fails with the
parse error and the two-file batch collects the same scores as the batch
without `bad.py`. -/
theorem parse_error_is_contained_witness :
    calculate_crapE exEnv (fun _ => none) "bad.py" ∅ = .error (.parseError "invalid syntax") ∧
    collect_scores exEnv (fun _ _ => none) (fun _ => false)
        [("good.py", ∅), ("bad.py", ∅)]
      = collect_scores exEnv (fun _ _ => none) (fun _ => false) [("good.py", ∅)] := by
  have h := parse_error_is_contained exEnv (fun _ _ => none) (fun _ => false)
    "bad.py" ∅ (.parseError "invalid syntax") (by rfl)
  exact ⟨h.1, by simpa using h.2 [("good.py", ∅)] []⟩

end PytestCrap
